import Mathlib

/-!
Verification of the parallel-render audio compositor
(`getAssetPlacement`, `calculateAtempoFilters`, `prepareAudio`,
`mergeAudioTracks`, `generateAudio`, `mergeMedia`).

The TypeScript source is shallowly embedded: JS numbers become `ℚ`
(the code only performs field arithmetic, `Math.min` / `Math.max` /
`Math.abs` / `Math.ceil` on them), the JS `Infinity` sentinel used for
`durationInSeconds` becomes `Option ℚ` with `none` standing for
`Infinity`, and the ffmpeg filter strings pushed onto `audioFilters`
become constructors of an `AudioFilter` type carrying the numeric
parameters that the source interpolates into each string.
-/

/-- The `'video' | 'audio'` union of the `type` field. -/
inductive MediaType where
  | video
  | audio
deriving DecidableEq, Repr

/-- One per-frame sample handed to `getAssetPlacement` (`AssetInfo` in the
source).  Only the fields the compositor reads are carried. -/
structure AssetInfo where
  key : String
  src : String
  type : MediaType
  currentTime : ℚ
  playbackRate : ℚ
  volume : ℚ
  loop : Option Bool
deriving DecidableEq, Repr

/-- The `MediaAsset` record built by `getAssetPlacement`.
`durationInSeconds = none` embeds the JS `Infinity` sentinel. -/
structure MediaAsset where
  key : String
  src : String
  type : MediaType
  startInVideo : ℕ
  endInVideo : ℕ
  duration : ℕ
  playbackRate : ℚ
  volume : ℚ
  trimLeftInSeconds : ℚ
  durationInSeconds : Option ℚ
  loop : Option Bool
  volumeChanges : Option (List (ℕ × ℚ))
deriving DecidableEq, Repr

/-! ## calculateAtempoFilters

The source runs two `while` loops on a local `rate` variable.  Each loop
is embedded with an explicit fuel argument; fuel `⌈rate⌉.toNat + 1`
(resp. `⌈1/rate⌉.toNat + 1`) is proven sufficient below, so for every
positive rate the fueled function computes exactly what the loop does.
(For `rate ≤ 0` the source's second loop would not terminate; all claims
are about `rate > 0`.) -/

/-- The first loop of `calculateAtempoFilters`:
`while (rate > 100) push 100, rate /= 100; if (rate > 1) push rate`. -/
def atempoHighF : ℕ → ℚ → List ℚ
  | 0, _ => []
  | fuel + 1, rate =>
    if 100 < rate then 100 :: atempoHighF fuel (rate / 100)
    else if 1 < rate then [rate] else []

/-- The second loop of `calculateAtempoFilters` (the source resets `rate`
to `playbackRate` first):
`while (rate < 0.5) push 0.5, rate *= 2; if (rate < 1) push rate`. -/
def atempoLowF : ℕ → ℚ → List ℚ
  | 0, _ => []
  | fuel + 1, rate =>
    if rate < 1/2 then (1/2 : ℚ) :: atempoLowF fuel (rate * 2)
    else if rate < 1 then [rate] else []

/-- `calculateAtempoFilters`, as the list of numeric stage factors of the
emitted `atempo=<f>` filters, in emission order. -/
def calculateAtempoFilters (playbackRate : ℚ) : List ℚ :=
  atempoHighF (⌈playbackRate⌉.toNat + 1) playbackRate ++
    atempoLowF (⌈1/playbackRate⌉.toNat + 1) playbackRate

lemma ceil_div_hundred_lt {rate : ℚ} (h : 100 < rate) :
    ⌈rate / 100⌉.toNat < ⌈rate⌉.toNat := by
  have h1 : (100 : ℤ) < ⌈rate⌉ := by
    exact_mod_cast lt_of_lt_of_le h (Int.le_ceil rate)
  have h2 : (⌈rate / 100⌉ : ℚ) < rate / 100 + 1 := Int.ceil_lt_add_one _
  have h3 : rate ≤ (⌈rate⌉ : ℚ) := Int.le_ceil rate
  have h4 : (⌈rate / 100⌉ : ℚ) < (⌈rate⌉ : ℚ) := by
    have hb : (101 : ℚ) ≤ (⌈rate⌉ : ℚ) := by exact_mod_cast h1
    linarith
  have h5 : ⌈rate / 100⌉ < ⌈rate⌉ := by exact_mod_cast h4
  omega

lemma ceil_inv_double_lt {rate : ℚ} (h0 : 0 < rate) (h : rate < 1/2) :
    ⌈1 / (rate * 2)⌉.toNat < ⌈1 / rate⌉.toNat := by
  have hx : (2 : ℚ) < 1 / rate := by
    rw [lt_div_iff₀ h0]; linarith
  have h1 : (2 : ℤ) < ⌈1/rate⌉ := by
    exact_mod_cast lt_of_lt_of_le hx (Int.le_ceil _)
  have heq : (1 : ℚ) / (rate * 2) = (1 / rate) / 2 := by ring
  have h2 : (⌈(1/rate)/2⌉ : ℚ) < (1/rate)/2 + 1 := Int.ceil_lt_add_one _
  have h3 : (1/rate : ℚ) ≤ (⌈1/rate⌉ : ℚ) := Int.le_ceil _
  have h4 : (⌈(1/rate)/2⌉ : ℚ) < (⌈1/rate⌉ : ℚ) := by
    have hb : (3 : ℚ) ≤ (⌈1/rate⌉ : ℚ) := by exact_mod_cast h1
    linarith
  rw [heq]
  have h5 : ⌈(1/rate)/2⌉ < ⌈1/rate⌉ := by exact_mod_cast h4
  omega

lemma atempoHighF_spec :
    ∀ fuel rate, 0 < rate → ⌈rate⌉.toNat < fuel →
      (atempoHighF fuel rate).prod = (if 1 < rate then rate else 1) ∧
      (∀ f ∈ atempoHighF fuel rate, 1 < f ∧ f ≤ 100) := by
  intro fuel
  induction fuel with
  | zero => intro rate _ hf; omega
  | succ n ih =>
    intro rate hr hf
    by_cases h100 : 100 < rate
    · have hnext : ⌈rate / 100⌉.toNat < n := by
        have := ceil_div_hundred_lt h100
        omega
      have hr' : 0 < rate / 100 := by positivity
      obtain ⟨hp, hm⟩ := ih (rate / 100) hr' hnext
      have h1' : 1 < rate / 100 := (one_lt_div (by norm_num)).mpr h100
      have hcancel : (100 : ℚ) * (rate / 100) = rate := by field_simp
      constructor
      · simp only [atempoHighF, if_pos h100, List.prod_cons, hp, if_pos h1']
        rw [if_pos (by linarith : (1:ℚ) < rate)]
        exact hcancel
      · intro f hfm
        simp only [atempoHighF, if_pos h100, List.mem_cons] at hfm
        rcases hfm with rfl | hfm
        · exact ⟨by norm_num, le_refl _⟩
        · exact hm f hfm
    · by_cases h1 : 1 < rate
      · constructor
        · simp only [atempoHighF, if_neg h100, if_pos h1, List.prod_singleton]
        · intro f hfm
          simp only [atempoHighF, if_neg h100, if_pos h1, List.mem_singleton] at hfm
          subst hfm
          exact ⟨h1, le_of_not_lt h100⟩
      · constructor
        · simp only [atempoHighF, if_neg h100, if_neg h1, List.prod_nil]
        · intro f hfm
          simp only [atempoHighF, if_neg h100, if_neg h1, List.not_mem_nil] at hfm

lemma atempoLowF_spec :
    ∀ fuel rate, 0 < rate → ⌈1/rate⌉.toNat < fuel →
      (atempoLowF fuel rate).prod = (if rate < 1 then rate else 1) ∧
      (∀ f ∈ atempoLowF fuel rate, 1/2 ≤ f ∧ f < 1) := by
  intro fuel
  induction fuel with
  | zero => intro rate _ hf; omega
  | succ n ih =>
    intro rate hr hf
    by_cases hhalf : rate < 1/2
    · have hnext : ⌈1 / (rate * 2)⌉.toNat < n := by
        have := ceil_inv_double_lt hr hhalf
        omega
      have hr' : 0 < rate * 2 := by positivity
      obtain ⟨hp, hm⟩ := ih (rate * 2) hr' hnext
      have h1' : rate * 2 < 1 := by linarith
      constructor
      · simp only [atempoLowF, if_pos hhalf, List.prod_cons, hp, if_pos h1']
        rw [if_pos (by linarith : rate < 1)]
        ring
      · intro f hfm
        simp only [atempoLowF, if_pos hhalf, List.mem_cons] at hfm
        rcases hfm with rfl | hfm
        · exact ⟨le_refl _, by norm_num⟩
        · exact hm f hfm
    · by_cases h1 : rate < 1
      · constructor
        · simp only [atempoLowF, if_neg hhalf, if_pos h1, List.prod_singleton]
        · intro f hfm
          simp only [atempoLowF, if_neg hhalf, if_pos h1, List.mem_singleton] at hfm
          subst hfm
          exact ⟨le_of_not_lt hhalf, h1⟩
      · constructor
        · simp only [atempoLowF, if_neg hhalf, if_neg h1, List.prod_nil]
        · intro f hfm
          simp only [atempoLowF, if_neg hhalf, if_neg h1, List.not_mem_nil] at hfm

/-- C2: For every playback rate `r > 0`, the atempo stage factors emitted by
`calculateAtempoFilters` multiply back to exactly `r` (the embedding works in
`ℚ`, so "within floating tolerance" holds exactly), every stage factor lies in
the valid `atempo` range `[0.5, 100]`, and for `r = 1` the emitted list is
empty. -/
theorem calculateAtempoFilters_product_and_bounds (r : ℚ) (hr : 0 < r) :
    (calculateAtempoFilters r).prod = r ∧
    (∀ f ∈ calculateAtempoFilters r, 1/2 ≤ f ∧ f ≤ 100) ∧
    calculateAtempoFilters 1 = [] := by
  obtain ⟨hp, hm⟩ := atempoHighF_spec _ r hr (Nat.lt_succ_self _)
  obtain ⟨lp, lm⟩ := atempoLowF_spec _ r hr (Nat.lt_succ_self _)
  refine ⟨?_, ?_, ?_⟩
  · rw [calculateAtempoFilters, List.prod_append, hp, lp]
    rcases lt_trichotomy r 1 with h | h | h
    · rw [if_neg (not_lt.mpr h.le), if_pos h, one_mul]
    · subst h; norm_num
    · rw [if_pos h, if_neg (not_lt.mpr h.le), mul_one]
  · intro f hf
    rw [calculateAtempoFilters, List.mem_append] at hf
    rcases hf with hf | hf
    · exact ⟨le_trans (by norm_num) (hm f hf).1.le, (hm f hf).2⟩
    · exact ⟨(lm f hf).1, le_trans (lm f hf).2.le (by norm_num)⟩
  · norm_num [calculateAtempoFilters, atempoHighF, atempoLowF]

/-- Witness for C2 at the concrete rate `r = 250`: the emitted stages are
`[100, 2.5]` whose product is `250`, all within `[0.5, 100]`. -/
theorem calculateAtempoFilters_product_and_bounds_witness :
    (0 : ℚ) < 250 ∧
      ((calculateAtempoFilters 250).prod = 250 ∧
       (∀ f ∈ calculateAtempoFilters 250, 1/2 ≤ f ∧ f ≤ 100) ∧
       calculateAtempoFilters 1 = []) :=
  ⟨by norm_num, calculateAtempoFilters_product_and_bounds 250 (by norm_num)⟩

/-! ## getAssetPlacement

The three JS `Map`s (`assetTimeMap`, `assetLoopMap`, `assetVolumeMap`) are
embedded as association lists with insert-or-update `mapSet` and keyed
lookup `mapGet`; the `assets` array is a `List MediaAsset` grown at the
back, exactly as `assets.push` does. -/

/-- `Map.get`: the value stored under `k`, if any. -/
def mapGet {α : Type} (m : List (String × α)) (k : String) : Option α :=
  (m.find? (fun p => p.1 == k)).map (fun p => p.2)

/-- `Map.set`: update the entry for `k` in place, or append a new one. -/
def mapSet {α : Type} : List (String × α) → String → α → List (String × α)
  | [], k, v => [(k, v)]
  | p :: rest, k, v =>
    if p.1 == k then (k, v) :: rest else p :: mapSet rest k v

/-- The mutable state of `getAssetPlacement`'s main loop. -/
structure PlacementState where
  assets : List MediaAsset
  timeMap : List (String × (ℚ × ℚ))
  loopMap : List (String × Bool)
  volumeMap : List (String × List (ℕ × ℚ))

/-- The `MediaAsset` pushed when a key is first seen: placeholders `0` for
`duration` and `durationInSeconds`, `trimLeftInSeconds` is the first
sample's `currentTime`. -/
def initAsset (frame : ℕ) (a : AssetInfo) : MediaAsset :=
  { key := a.key, src := a.src, type := a.type,
    startInVideo := frame, endInVideo := frame,
    duration := 0, durationInSeconds := some 0,
    playbackRate := a.playbackRate, volume := a.volume,
    trimLeftInSeconds := a.currentTime, loop := a.loop,
    volumeChanges := none }

/-- `assets.find(a => a.key === key)` followed by mutating the found
record's `endInVideo`: only the first matching record is updated. -/
def updateFirstAsset : List MediaAsset → String → ℕ → List MediaAsset
  | [], _, _ => []
  | x :: rest, k, frame =>
    if x.key == k then { x with endInVideo := frame } :: rest
    else x :: updateFirstAsset rest k frame

/-- The body of the nested `for` loop of `getAssetPlacement`, for one
sample `a` seen at frame index `frame`. -/
def processSample (frame : ℕ) (st : PlacementState) (a : AssetInfo) :
    PlacementState :=
  match mapGet st.timeMap a.key with
  | none =>
      { assets := st.assets ++ [initAsset frame a],
        timeMap := mapSet st.timeMap a.key (a.currentTime, a.currentTime),
        loopMap := mapSet st.loopMap a.key (a.loop.getD false),
        volumeMap := mapSet st.volumeMap a.key [(0, a.volume)] }
  | some ti =>
      let timeMap := mapSet st.timeMap a.key (ti.1, a.currentTime)
      match st.assets.find? (fun x => x.key == a.key) with
      | none => { st with timeMap := timeMap }
      | some ex =>
          let volumeMap :=
            match mapGet st.volumeMap a.key with
            | none => st.volumeMap
            | some vcs =>
                let frameOffset := frame - ex.startInVideo
                -- the source reads `vcs[vcs.length - 1][1]`; `vcs` is never
                -- empty (it is seeded with one breakpoint on insertion)
                let lastVolume := (vcs.getLastD (0, 0)).2
                if 1/1000 < |a.volume - lastVolume| then
                  mapSet st.volumeMap a.key (vcs ++ [(frameOffset, a.volume)])
                else st.volumeMap
          { assets := updateFirstAsset st.assets a.key frame,
            timeMap := timeMap, loopMap := st.loopMap,
            volumeMap := volumeMap }

/-- The two final `assets.forEach` passes, per asset: attach the volume
envelope when it has more than one breakpoint, recompute `duration` from
frames, set `durationInSeconds` (the `none` = `Infinity` sentinel for
looping assets), and apply the stuck-`currentTime` workaround. -/
def finalizeAsset (st : PlacementState) (asset : MediaAsset) : MediaAsset :=
  let withVC :=
    match mapGet st.volumeMap asset.key with
    | some vcs =>
        if 1 < vcs.length then { asset with volumeChanges := some vcs }
        else asset
    | none => asset
  let isLooping := (mapGet st.loopMap asset.key).getD false
  let duration := withVC.endInVideo - withVC.startInVideo + 1
  let afterTime : MediaAsset :=
    match mapGet st.timeMap asset.key with
    | some ti =>
        if isLooping then
          { withVC with duration := duration, durationInSeconds := none }
        else
          { withVC with
              duration := duration
              durationInSeconds := some ((ti.2 - ti.1) / withVC.playbackRate) }
    | none => { withVC with duration := duration }
  if afterTime.durationInSeconds = some (0 : ℚ) ∧ 1 < afterTime.duration then
    { afterTime with durationInSeconds := none }
  else afterTime

/-- The main loop of `getAssetPlacement`:
`for (frame = 0; frame < frames.length; frame++) for (asset of frames[frame])`. -/
def placementFold (frames : List (List AssetInfo)) : PlacementState :=
  frames.enum.foldl (fun st p => p.2.foldl (processSample p.1) st)
    ⟨[], [], [], []⟩

/-- `getAssetPlacement`. -/
def getAssetPlacement (frames : List (List AssetInfo)) : List MediaAsset :=
  let st := placementFold frames
  st.assets.map (finalizeAsset st)

/-! ## prepareAudio: the ffmpeg filter chain

`prepareAudio` builds the `audioFilters` array by sequential pushes and
joins it with `,` into the `-af` argument.  Each pushed filter string is
embedded as a constructor carrying the numeric values the source
interpolates into it. -/

/-- One entry of the `audioFilters` array. -/
inductive AudioFilter where
  /-- `aloop=loop=<count>:size=2e+09` -/
  | aloop (count : ℤ)
  /-- `atempo=<factor>` -/
  | atempo (factor : ℚ)
  /-- `atrim=start=<startT>:end=<endT>` (`none` embeds `Infinity`) -/
  | atrim (startT : ℚ) (endT : Option ℚ)
  /-- `apad=pad_len=<padLen>` -/
  | apad (padLen : ℚ)
  /-- `adelay=<ms>|<ms>|<ms>` -/
  | adelay (ms : ℚ)
  /-- `volume=<v>` -/
  | volume (v : ℚ)
  /-- `afade=t=out:st=<startT>:d=<d>:curve=qsin` -/
  | afadeOut (startT d : ℚ)
  /-- `afade=t=in:st=<startT>:d=<d>:curve=tri` -/
  | afadeIn (startT d : ℚ)
  /-- the piecewise-linear `volume='if(lt(t,fadeStart),1,if(gt(t,fadeEnd),v2,...))':eval=frame` expression -/
  | volumeExpr (fadeStart fadeEnd v2 : ℚ)
deriving DecidableEq, Repr

/-- `trimLeft = asset.trimLeftInSeconds / asset.playbackRate`. -/
def trimLeftOf (asset : MediaAsset) : ℚ :=
  asset.trimLeftInSeconds / asset.playbackRate

/-- `requiredDurationInSeconds = (endFrame - startFrame) / fps`. -/
def requiredDurationOf (startFrame endFrame : ℕ) (fps : ℚ) : ℚ :=
  ((endFrame : ℚ) - (startFrame : ℚ)) / fps

/-- `Math.min` in the presence of the `Infinity` sentinel (`none`). -/
def minWithInf (a : Option ℚ) (b : ℚ) : ℚ :=
  match a with
  | none => b
  | some x => min x b

/-- `trimRight = 1/fps + Math.min(trimLeft + durationInSeconds,
trimLeft + requiredDurationInSeconds)`; finite because the second
argument always is. -/
def trimRightOf (asset : MediaAsset) (startFrame endFrame : ℕ) (fps : ℚ) : ℚ :=
  1 / fps +
    minWithInf ((asset.durationInSeconds).map (fun d => trimLeftOf asset + d))
      (trimLeftOf asset + requiredDurationOf startFrame endFrame fps)

/-- `padStart = (asset.startInVideo / fps) * 1000` (milliseconds). -/
def padStartOf (asset : MediaAsset) (fps : ℚ) : ℚ :=
  ((asset.startInVideo : ℚ) / fps) * 1000

/-- `padEnd = Math.max(0, sampleRate*(endFrame-startFrame+1)/fps -
sampleRate*asset.duration/fps - sampleRate*padStart/1000)`. -/
def padEndOf (asset : MediaAsset) (startFrame endFrame : ℕ)
    (fps assetSampleRate : ℚ) : ℚ :=
  max 0
    (assetSampleRate * ((endFrame : ℚ) - (startFrame : ℚ) + 1) / fps -
      assetSampleRate * (asset.duration : ℚ) / fps -
      assetSampleRate * padStartOf asset fps / 1000)

/-- `loopCount = Math.ceil((trimLeft + requiredDuration + 5) / 10) + 2`
(`+5` seconds of buffer, `10` the conservative clip-length estimate). -/
def loopCountOf (asset : MediaAsset) (startFrame endFrame : ℕ) (fps : ℚ) : ℤ :=
  ⌈(trimLeftOf asset + requiredDurationOf startFrame endFrame fps + 5) / 10⌉ + 2

/-- The volume-shaping filters pushed at the end of `prepareAudio`
(the `asset.volumeChanges` branch and the static-volume fallback). -/
def volumeFiltersOf (asset : MediaAsset) (fps padStart : ℚ) : List AudioFilter :=
  match asset.volumeChanges with
  | some vcs =>
      if 1 < vcs.length then
        let firstVolume := (vcs.headD (0, 0)).2
        let lastChange := vcs.getLastD (0, 0)
        let lastVolume := lastChange.2
        -- `fadeStartFrame`: the source's guard `volumeChanges.length > 1` is
        -- always true here, so this is always the second breakpoint's offset
        let fadeStartFrame := if 1 < vcs.length then (vcs.getD 1 (0, 0)).1
          else lastChange.1
        let fadeStartTimeInVideo := (fadeStartFrame : ℚ) / fps
        let fadeDuration := ((lastChange.1 : ℚ) - (fadeStartFrame : ℚ)) / fps
        AudioFilter.volume firstVolume ::
          (if lastVolume < firstVolume ∧ 0 < fadeDuration then
            let fadeStartInStream := padStart / 1000 + fadeStartTimeInVideo
            if lastVolume < 1/20 then
              [AudioFilter.afadeOut fadeStartInStream fadeDuration]
            else
              [AudioFilter.volumeExpr fadeStartInStream
                (fadeStartInStream + fadeDuration) (lastVolume / firstVolume)]
          else if firstVolume < lastVolume ∧ 0 < fadeDuration then
            [AudioFilter.afadeIn (padStart / 1000 + fadeStartTimeInVideo)
              fadeDuration]
          else [])
      else [AudioFilter.volume asset.volume]
  | none => [AudioFilter.volume asset.volume]

/-- The full `audioFilters` array built by `prepareAudio` for one asset, in
push order: optional `aloop`, the atempo chain, `atrim`, `apad`, `adelay`,
then volume shaping. -/
def prepareAudioFilters (asset : MediaAsset) (startFrame endFrame : ℕ)
    (fps assetSampleRate : ℚ) : List AudioFilter :=
  let needsLooping := asset.loop.getD false && asset.durationInSeconds.isNone
  let padStart := padStartOf asset fps
  (if needsLooping then
      [AudioFilter.aloop (loopCountOf asset startFrame endFrame fps)]
    else []) ++
  (calculateAtempoFilters asset.playbackRate).map AudioFilter.atempo ++
  [AudioFilter.atrim (trimLeftOf asset)
      (some (trimRightOf asset startFrame endFrame fps)),
    AudioFilter.apad (padEndOf asset startFrame endFrame fps assetSampleRate),
    AudioFilter.adelay padStart] ++
  volumeFiltersOf asset fps padStart

/-- Discriminator: is this the `apad` (end-padding) filter? -/
def isApad : AudioFilter → Bool
  | AudioFilter.apad _ => true
  | _ => false

/-- Discriminator: is this the `adelay` (start-padding) filter? -/
def isAdelay : AudioFilter → Bool
  | AudioFilter.adelay _ => true
  | _ => false

/-- Discriminator: is this the `aloop` (looping materialization) filter? -/
def isAloop : AudioFilter → Bool
  | AudioFilter.aloop _ => true
  | _ => false

/-- Discriminator: is this an `atempo` stage? -/
def isAtempo : AudioFilter → Bool
  | AudioFilter.atempo _ => true
  | _ => false

/-- Discriminator: is this the timed fade-out filter
`afade=t=out:...:curve=qsin`? -/
def isAfadeOut : AudioFilter → Bool
  | AudioFilter.afadeOut _ _ => true
  | _ => false

/-- Discriminator: is this one of the volume-shaping filters
(constant gain, fade-in, fade-out, or the piecewise-linear expression)? -/
def isVolumeShaping : AudioFilter → Bool
  | AudioFilter.volume _ => true
  | AudioFilter.afadeOut _ _ => true
  | AudioFilter.afadeIn _ _ => true
  | AudioFilter.volumeExpr _ _ _ => true
  | _ => false

/-! ## C1: the end-to-end fade-out scenario -/

/-- The sample of asset `A` in the C1 scenario at `currentTime` `t` with
volume `v`. -/
def c1Sample (t v : ℚ) : AssetInfo :=
  { key := "A", src := "a.wav", type := MediaType.audio, currentTime := t,
    playbackRate := 1, volume := v, loop := none }

/-- The C1 scenario input: three frames, `currentTime` 0 / 0.033 / 0.066,
volume 1.0 / 1.0 / 0.0, looping off. -/
def c1Frames : List (List AssetInfo) :=
  [[c1Sample 0 1], [c1Sample (33/1000) 1], [c1Sample (66/1000) 0]]

/-- The `AssetSpan` that `getAssetPlacement` reconstructs from `c1Frames`. -/
def c1Asset : MediaAsset :=
  { key := "A", src := "a.wav", type := MediaType.audio,
    startInVideo := 0, endInVideo := 2, duration := 3,
    playbackRate := 1, volume := 1, trimLeftInSeconds := 0,
    durationInSeconds := some (33/500), loop := none,
    volumeChanges := some [(0, 1), (2, 0)] }

lemma c1_placement : getAssetPlacement c1Frames = [c1Asset] := by
  norm_num [getAssetPlacement, placementFold, processSample, finalizeAsset,
    mapGet, mapSet, initAsset, updateFirstAsset, c1Frames, c1Sample, c1Asset,
    List.enum, List.enumFrom, List.find?]

lemma c1_filters : prepareAudioFilters c1Asset 0 3 30 48000 =
    [AudioFilter.atrim 0 (some (149/1500)), AudioFilter.apad 1600,
     AudioFilter.adelay 0, AudioFilter.volume 1] := by
  norm_num [prepareAudioFilters, calculateAtempoFilters, atempoHighF,
    atempoLowF, trimLeftOf, trimRightOf, requiredDurationOf, minWithInf,
    padStartOf, padEndOf, volumeFiltersOf, c1Asset]

/-- C1: the Timeline Reconstructor half of the claim holds (three samples of
asset `A` at frames 0,1,2 with `currentTime` 0/0.033/0.066 and volume
1.0/1.0/0.0 give `duration = 3` and the envelope `[(0,1),(2,0)]`), but the
Segment Synthesizer half fails on the code: for a two-breakpoint envelope the
fade start is read from `volumeChanges[1]`, which is also the last breakpoint,
so `fadeDuration = 0` and the `afade` branch (guarded by `fadeDuration > 0`)
is skipped — the emitted chain carries only the constant `volume=1` filter and
no timed fade-out, contradicting the claim (and the source's own doc comment
that volume changes are applied with an `afade` filter). -/
theorem c1_scenario_fadeOut_not_emitted :
    getAssetPlacement c1Frames = [c1Asset] ∧
    c1Asset.duration = 3 ∧
    c1Asset.volumeChanges = some [(0, 1), (2, 0)] ∧
    prepareAudioFilters c1Asset 0 3 30 48000 =
      [AudioFilter.atrim 0 (some (149/1500)), AudioFilter.apad 1600,
       AudioFilter.adelay 0, AudioFilter.volume 1] ∧
    (prepareAudioFilters c1Asset 0 3 30 48000).all
      (fun f => !(isAfadeOut f)) = true := by
  refine ⟨c1_placement, rfl, rfl, c1_filters, ?_⟩
  rw [c1_filters]
  rfl

/-! ## C3: the order of the emitted filter chain -/

/-- A plain non-looping asset at constant half volume used to exhibit the
emitted chain order. -/
def c3Asset : MediaAsset :=
  { key := "k", src := "s.mp3", type := MediaType.audio,
    startInVideo := 0, endInVideo := 1, duration := 2,
    playbackRate := 1, volume := 1/2, trimLeftInSeconds := 0,
    durationInSeconds := some 1, loop := none, volumeChanges := none }

lemma c3_filters : prepareAudioFilters c3Asset 0 2 10 100 =
    [AudioFilter.atrim 0 (some (3/10)), AudioFilter.apad 10,
     AudioFilter.adelay 0, AudioFilter.volume (1/2)] := by
  norm_num [prepareAudioFilters, calculateAtempoFilters, atempoHighF,
    atempoLowF, trimLeftOf, trimRightOf, requiredDurationOf, minWithInf,
    padStartOf, padEndOf, volumeFiltersOf, c3Asset]

/-- C3 counterexample: in the chain emitted for `c3Asset` the end-padding
filter `apad` sits at index 1 and the start-padding filter `adelay` at
index 2, so the start-padding filter does NOT precede the end-padding
filter, refuting the claimed order. -/
theorem c3_startPad_does_not_precede_endPad :
    (prepareAudioFilters c3Asset 0 2 10 100).findIdx isApad = 1 ∧
    (prepareAudioFilters c3Asset 0 2 10 100).findIdx isAdelay = 2 ∧
    ¬ ((prepareAudioFilters c3Asset 0 2 10 100).findIdx isAdelay <
        (prepareAudioFilters c3Asset 0 2 10 100).findIdx isApad) := by
  rw [c3_filters]
  refine ⟨rfl, rfl, by decide⟩

lemma volumeFiltersOf_shaping (asset : MediaAsset) (fps padStart : ℚ) :
    ∀ f ∈ volumeFiltersOf asset fps padStart, isVolumeShaping f = true := by
  intro f hf
  rcases hvc : asset.volumeChanges with _ | vcs
  · simp only [volumeFiltersOf, hvc, List.mem_singleton] at hf
    subst hf
    rfl
  · simp only [volumeFiltersOf, hvc] at hf
    split_ifs at hf <;>
      simp only [List.mem_cons, List.mem_singleton, List.not_mem_nil,
        or_false] at hf <;>
      rcases hf with rfl | rfl <;> rfl

/-- C3 amended: for every asset and shard parameters, the emitted chain
decomposes as `loopPart ++ tempoPart ++ [atrim, apad, adelay] ++ volumePart`
where `loopPart` is exactly the single looping-materialization `aloop` filter
when the asset is looping and unbounded and empty otherwise, `tempoPart` is
exactly the atempo stage chain of the playback rate, and `volumePart`
consists only of volume-shaping filters — i.e. the order is looping
materialization, then tempo stages, then trim, then END pad (`apad`), then
START pad (`adelay`), then volume shaping; the end-padding filter precedes
the start-padding filter, not the other way round. -/
theorem prepareAudioFilters_order (asset : MediaAsset) (sf ef : ℕ)
    (fps sr : ℚ) :
    ∃ loopPart tempoPart volumePart,
      prepareAudioFilters asset sf ef fps sr =
        loopPart ++ tempoPart ++
          AudioFilter.atrim (trimLeftOf asset)
            (some (trimRightOf asset sf ef fps)) ::
          AudioFilter.apad (padEndOf asset sf ef fps sr) ::
          AudioFilter.adelay (padStartOf asset fps) :: volumePart ∧
      (asset.loop.getD false = true ∧ asset.durationInSeconds = none →
        loopPart = [AudioFilter.aloop (loopCountOf asset sf ef fps)]) ∧
      (¬(asset.loop.getD false = true ∧ asset.durationInSeconds = none) →
        loopPart = []) ∧
      tempoPart =
        (calculateAtempoFilters asset.playbackRate).map AudioFilter.atempo ∧
      (∀ f ∈ volumePart, isVolumeShaping f = true) := by
  by_cases hng : asset.loop.getD false = true ∧ asset.durationInSeconds = none
  · have hcond : (asset.loop.getD false && asset.durationInSeconds.isNone)
        = true := by
      rw [hng.1, hng.2]
      rfl
    refine ⟨[AudioFilter.aloop (loopCountOf asset sf ef fps)],
      (calculateAtempoFilters asset.playbackRate).map AudioFilter.atempo,
      volumeFiltersOf asset fps (padStartOf asset fps), ?_,
      fun _ => rfl, fun hc => absurd hng hc, rfl,
      volumeFiltersOf_shaping asset fps (padStartOf asset fps)⟩
    simp [prepareAudioFilters, hcond]
  · have hcond : (asset.loop.getD false && asset.durationInSeconds.isNone)
        = false := by
      cases hcb : (asset.loop.getD false && asset.durationInSeconds.isNone) with
      | false => rfl
      | true =>
        exact absurd (by
          simpa [Bool.and_eq_true, Option.isNone_iff_eq_none] using hcb) hng
    refine ⟨[],
      (calculateAtempoFilters asset.playbackRate).map AudioFilter.atempo,
      volumeFiltersOf asset fps (padStartOf asset fps), ?_,
      fun hc => absurd hc hng, fun _ => rfl, rfl,
      volumeFiltersOf_shaping asset fps (padStartOf asset fps)⟩
    simp [prepareAudioFilters, hcond]

/-! ## C4: the extraction window is non-negative -/

/-- C4: for every asset span satisfying the data-model invariants
(`fps > 0`, shard `startFrame ≤ endFrame`, `durationInSeconds` finite
non-negative or the unbounded sentinel), the trim window computed by
`prepareAudio` satisfies `trimRight ≥ trimLeft`. -/
theorem trimRight_ge_trimLeft (asset : MediaAsset) (sf ef : ℕ) (fps : ℚ)
    (hfps : 0 < fps) (hse : sf ≤ ef)
    (hd : ∀ d, asset.durationInSeconds = some d → 0 ≤ d) :
    trimLeftOf asset ≤ trimRightOf asset sf ef fps := by
  have hreq : 0 ≤ requiredDurationOf sf ef fps := by
    apply div_nonneg _ hfps.le
    have : (sf : ℚ) ≤ (ef : ℚ) := by exact_mod_cast hse
    linarith
  have hfpsinv : 0 < 1 / fps := by positivity
  rcases hds : asset.durationInSeconds with _ | d
  · simp only [trimRightOf, minWithInf, hds, Option.map_none']
    linarith
  · have hd0 : 0 ≤ d := hd d hds
    simp only [trimRightOf, minWithInf, hds, Option.map_some']
    have hmin : trimLeftOf asset ≤
        min (trimLeftOf asset + d)
          (trimLeftOf asset + requiredDurationOf sf ef fps) :=
      le_min (by linarith) (by linarith)
    linarith

/-- Witness for C4 at a concrete asset and shard. -/
theorem trimRight_ge_trimLeft_witness :
    (0 : ℚ) < 30 ∧ (0 : ℕ) ≤ 3 ∧
      trimLeftOf c1Asset ≤ trimRightOf c1Asset 0 3 30 :=
  ⟨by norm_num, by norm_num,
    trimRight_ge_trimLeft c1Asset 0 3 30 (by norm_num) (by norm_num)
      (fun d hd => by
        simp only [c1Asset] at hd
        injection hd with h
        subst h
        norm_num)⟩

/-! ## Invariants of the placement fold

To reason about the nested `for` loops, the iteration is flattened into
the list of `(frame, sample)` pairs in visit order. -/

/-- The `(frame, sample)` pairs visited by the nested loops, frames
numbered from `n`. -/
def samplesFrom : ℕ → List (List AssetInfo) → List (ℕ × AssetInfo)
  | _, [] => []
  | n, f :: fs => f.map (fun a => (n, a)) ++ samplesFrom (n + 1) fs

/-- All `(frame, sample)` pairs of the input, in visit order. -/
def samplesOf (frames : List (List AssetInfo)) : List (ℕ × AssetInfo) :=
  samplesFrom 0 frames

/-- `processSample` uncurried over a `(frame, sample)` pair. -/
def stepSample (st : PlacementState) (p : ℕ × AssetInfo) : PlacementState :=
  processSample p.1 st p.2

/-- The initial placement state (three empty maps, no assets). -/
def emptyPlacementState : PlacementState := ⟨[], [], [], []⟩

lemma foldl_enumFrom_samples (frames : List (List AssetInfo)) :
    ∀ (n : ℕ) (st : PlacementState),
      (List.enumFrom n frames).foldl
          (fun st p => p.2.foldl (processSample p.1) st) st =
        (samplesFrom n frames).foldl stepSample st := by
  induction frames with
  | nil => intro n st; rfl
  | cons f fs ih =>
    intro n st
    simp only [List.enumFrom, List.foldl_cons, samplesFrom,
      List.foldl_append, List.foldl_map]
    exact ih (n + 1) _

lemma placementFold_eq_samples (frames : List (List AssetInfo)) :
    placementFold frames = (samplesOf frames).foldl stepSample
      emptyPlacementState := by
  rw [placementFold, List.enum]
  exact foldl_enumFrom_samples frames 0 _

lemma mapGet_set_self {α : Type} (m : List (String × α)) (k : String) (v : α) :
    mapGet (mapSet m k v) k = some v := by
  induction m with
  | nil =>
    simp [mapGet, mapSet, List.find?]
  | cons p rest ih =>
    by_cases h : p.1 == k
    · simp [mapGet, mapSet, h, List.find?]
    · simp only [mapSet, h, Bool.false_eq_true, if_false]
      simpa [mapGet, List.find?, h] using ih

lemma mapGet_set_ne {α : Type} (m : List (String × α)) (k k' : String) (v : α)
    (h : k' ≠ k) : mapGet (mapSet m k v) k' = mapGet m k' := by
  have hbk : (k == k') = false := by
    simp [BEq.comm]
    exact fun he => h he.symm
  induction m with
  | nil =>
    simp [mapGet, mapSet, List.find?, hbk]
  | cons p rest ih =>
    by_cases hp : p.1 == k
    · have hp' : p.1 = k := by simpa using hp
      have hpk : (p.1 == k') = false := by
        subst hp'
        exact hbk
      simp [mapGet, mapSet, hp, List.find?, hbk, hpk]
    · simp only [mapSet, hp, Bool.false_eq_true, if_false]
      by_cases hq : p.1 == k'
      · simp [mapGet, List.find?, hq]
      · simpa [mapGet, List.find?, hq] using ih

lemma mem_updateFirstAsset {l : List MediaAsset} {k : String} {fr : ℕ} :
    ∀ b' ∈ updateFirstAsset l k fr,
      ∃ b ∈ l, b' = b ∨ b' = { b with endInVideo := fr } := by
  induction l with
  | nil => intro b' h; simp [updateFirstAsset] at h
  | cons x rest ih =>
    intro b' h
    by_cases hx : x.key == k
    · simp only [updateFirstAsset, hx, if_true, List.mem_cons] at h
      rcases h with rfl | h
      · exact ⟨x, List.mem_cons_self x rest, Or.inr rfl⟩
      · exact ⟨b', List.mem_cons_of_mem x h, Or.inl rfl⟩
    · simp only [updateFirstAsset, hx, Bool.false_eq_true, if_false,
        List.mem_cons] at h
      rcases h with rfl | h
      · exact ⟨b', List.mem_cons_self b' rest, Or.inl rfl⟩
      · rcases ih b' h with ⟨b, hb, hbe⟩
        exact ⟨b, List.mem_cons_of_mem x hb, hbe⟩

lemma findAppendSome {α : Type} {p : α → Bool} {l₁ l₂ : List α} {x : α}
    (h : l₁.find? p = some x) : (l₁ ++ l₂).find? p = some x := by
  induction l₁ with
  | nil => simp [List.find?] at h
  | cons y rest ih =>
    by_cases hy : p y
    · rw [List.find?_cons_of_pos _ hy] at h
      rw [List.cons_append, List.find?_cons_of_pos _ hy]
      exact h
    · rw [List.find?_cons_of_neg _ (by simpa using hy)] at h
      rw [List.cons_append, List.find?_cons_of_neg _ (by simpa using hy)]
      exact ih h

lemma findAppendNone {α : Type} {p : α → Bool} {l₁ l₂ : List α}
    (h : l₁.find? p = none) : (l₁ ++ l₂).find? p = l₂.find? p := by
  induction l₁ with
  | nil => rfl
  | cons y rest ih =>
    by_cases hy : p y
    · rw [List.find?_cons_of_pos _ hy] at h
      exact absurd h (by simp)
    · rw [List.find?_cons_of_neg _ (by simpa using hy)] at h
      rw [List.cons_append, List.find?_cons_of_neg _ (by simpa using hy)]
      exact ih h

lemma placement_fold_inv :
    ∀ ps : List (ℕ × AssetInfo),
      (∀ a ∈ (ps.foldl stepSample emptyPlacementState).assets,
          ∃ s : AssetInfo,
            (ps.map (fun p => p.2)).find? (fun x => x.key == a.key) = some s ∧
            a.volume = s.volume ∧ a.loop = s.loop) ∧
      (∀ a ∈ (ps.foldl stepSample emptyPlacementState).assets,
          (mapGet (ps.foldl stepSample emptyPlacementState).timeMap
              a.key).isSome = true ∧
          mapGet (ps.foldl stepSample emptyPlacementState).loopMap a.key =
            some (a.loop.getD false)) ∧
      (∀ p ∈ ps,
          (mapGet (ps.foldl stepSample emptyPlacementState).timeMap
              p.2.key).isSome = true) := by
  intro ps
  induction ps using List.reverseRecOn with
  | nil =>
    refine ⟨?_, ?_, ?_⟩ <;> intro a ha <;> simp [emptyPlacementState] at ha
  | append_singleton l q ih =>
    obtain ⟨ihA, ihB, ihC⟩ := ih
    have hfold : (l ++ [q]).foldl stepSample emptyPlacementState =
        stepSample (l.foldl stepSample emptyPlacementState) q := by
      simp [List.foldl_append]
    have hmap : (l ++ [q]).map (fun p => p.2) =
        l.map (fun p => p.2) ++ [q.2] := by
      simp
    rw [hfold, hmap]
    rcases q with ⟨fr, smp⟩
    rcases ht : mapGet (l.foldl stepSample emptyPlacementState).timeMap
        smp.key with _ | ti
    · -- first time this key is seen: a fresh asset and fresh map entries
      have hassets : (stepSample (l.foldl stepSample emptyPlacementState)
            (fr, smp)).assets =
          (l.foldl stepSample emptyPlacementState).assets ++
            [initAsset fr smp] := by
        simp only [stepSample, processSample, ht]
      have htm : (stepSample (l.foldl stepSample emptyPlacementState)
            (fr, smp)).timeMap =
          mapSet (l.foldl stepSample emptyPlacementState).timeMap smp.key
            (smp.currentTime, smp.currentTime) := by
        simp only [stepSample, processSample, ht]
      have hlm : (stepSample (l.foldl stepSample emptyPlacementState)
            (fr, smp)).loopMap =
          mapSet (l.foldl stepSample emptyPlacementState).loopMap smp.key
            (smp.loop.getD false) := by
        simp only [stepSample, processSample, ht]
      have hknotin : ∀ a ∈ (l.foldl stepSample emptyPlacementState).assets,
          a.key ≠ smp.key := by
        intro a ha hk
        have hsome := (ihB a ha).1
        rw [hk, ht] at hsome
        simp at hsome
      have hknops : (l.map (fun p => p.2)).find?
          (fun x => x.key == smp.key) = none := by
        rw [List.find?_eq_none]
        intro x hx hpx
        rcases List.mem_map.mp hx with ⟨p, hp, rfl⟩
        have hsome := ihC p hp
        have hkeq : p.2.key = smp.key := by simpa using hpx
        rw [hkeq, ht] at hsome
        simp at hsome
      refine ⟨?_, ?_, ?_⟩
      · intro a ha
        rw [hassets, List.mem_append] at ha
        rcases ha with ha | ha
        · rcases ihA a ha with ⟨s, hs, hv, hl⟩
          exact ⟨s, findAppendSome hs, hv, hl⟩
        · simp only [List.mem_singleton] at ha
          subst ha
          refine ⟨smp, ?_, rfl, rfl⟩
          simp only [initAsset]
          rw [findAppendNone hknops]
          simp [List.find?]
      · intro a ha
        rw [hassets, List.mem_append] at ha
        rw [htm, hlm]
        rcases ha with ha | ha
        · have hne : a.key ≠ smp.key := hknotin a ha
          rw [mapGet_set_ne _ _ _ _ hne, mapGet_set_ne _ _ _ _ hne]
          exact ihB a ha
        · simp only [List.mem_singleton] at ha
          subst ha
          simp only [initAsset]
          rw [mapGet_set_self, mapGet_set_self]
          exact ⟨rfl, rfl⟩
      · intro p hp
        rw [htm]
        rw [List.mem_append] at hp
        rcases hp with hp | hp
        · by_cases hk : p.2.key = smp.key
          · rw [hk, mapGet_set_self]
            rfl
          · rw [mapGet_set_ne _ _ _ _ hk]
            exact ihC p hp
        · simp only [List.mem_singleton] at hp
          subst hp
          rw [mapGet_set_self]
          rfl
    · -- the key was seen before: `endInVideo` update and time-map update
      rcases hfind : (l.foldl stepSample emptyPlacementState).assets.find?
          (fun x => x.key == smp.key) with _ | ex
      · have hassets : (stepSample (l.foldl stepSample emptyPlacementState)
              (fr, smp)).assets =
            (l.foldl stepSample emptyPlacementState).assets := by
          simp only [stepSample, processSample, ht, hfind]
        have htm : (stepSample (l.foldl stepSample emptyPlacementState)
              (fr, smp)).timeMap =
            mapSet (l.foldl stepSample emptyPlacementState).timeMap smp.key
              (ti.1, smp.currentTime) := by
          simp only [stepSample, processSample, ht, hfind]
        have hlm : (stepSample (l.foldl stepSample emptyPlacementState)
              (fr, smp)).loopMap =
            (l.foldl stepSample emptyPlacementState).loopMap := by
          simp only [stepSample, processSample, ht, hfind]
        refine ⟨?_, ?_, ?_⟩
        · intro a ha
          rw [hassets] at ha
          rcases ihA a ha with ⟨s, hs, hv, hl⟩
          exact ⟨s, findAppendSome hs, hv, hl⟩
        · intro a ha
          rw [hassets] at ha
          rw [htm, hlm]
          refine ⟨?_, (ihB a ha).2⟩
          by_cases hk : a.key = smp.key
          · rw [hk, mapGet_set_self]
            rfl
          · rw [mapGet_set_ne _ _ _ _ hk]
            exact (ihB a ha).1
        · intro p hp
          rw [htm]
          rw [List.mem_append] at hp
          rcases hp with hp | hp
          · by_cases hk : p.2.key = smp.key
            · rw [hk, mapGet_set_self]
              rfl
            · rw [mapGet_set_ne _ _ _ _ hk]
              exact ihC p hp
          · simp only [List.mem_singleton] at hp
            subst hp
            rw [mapGet_set_self]
            rfl
      · have hassets : (stepSample (l.foldl stepSample emptyPlacementState)
              (fr, smp)).assets =
            updateFirstAsset (l.foldl stepSample emptyPlacementState).assets
              smp.key fr := by
          simp only [stepSample, processSample, ht, hfind]
        have htm : (stepSample (l.foldl stepSample emptyPlacementState)
              (fr, smp)).timeMap =
            mapSet (l.foldl stepSample emptyPlacementState).timeMap smp.key
              (ti.1, smp.currentTime) := by
          simp only [stepSample, processSample, ht, hfind]
        have hlm : (stepSample (l.foldl stepSample emptyPlacementState)
              (fr, smp)).loopMap =
            (l.foldl stepSample emptyPlacementState).loopMap := by
          simp only [stepSample, processSample, ht, hfind]
        refine ⟨?_, ?_, ?_⟩
        · intro a ha
          rw [hassets] at ha
          rcases mem_updateFirstAsset a ha with ⟨b, hb, hbe⟩
          have hkey : a.key = b.key := by rcases hbe with rfl | rfl <;> rfl
          have hvol : a.volume = b.volume := by rcases hbe with rfl | rfl <;> rfl
          have hloop : a.loop = b.loop := by rcases hbe with rfl | rfl <;> rfl
          rcases ihA b hb with ⟨s, hs, hv, hl⟩
          rw [hkey]
          exact ⟨s, findAppendSome hs, hvol.trans hv, hloop.trans hl⟩
        · intro a ha
          rw [hassets] at ha
          rcases mem_updateFirstAsset a ha with ⟨b, hb, hbe⟩
          have hkey : a.key = b.key := by rcases hbe with rfl | rfl <;> rfl
          have hloop : a.loop = b.loop := by rcases hbe with rfl | rfl <;> rfl
          rw [htm, hlm, hkey, hloop]
          refine ⟨?_, (ihB b hb).2⟩
          by_cases hk : b.key = smp.key
          · rw [hk, mapGet_set_self]
            rfl
          · rw [mapGet_set_ne _ _ _ _ hk]
            exact (ihB b hb).1
        · intro p hp
          rw [htm]
          rw [List.mem_append] at hp
          rcases hp with hp | hp
          · by_cases hk : p.2.key = smp.key
            · rw [hk, mapGet_set_self]
              rfl
            · rw [mapGet_set_ne _ _ _ _ hk]
              exact ihC p hp
          · simp only [List.mem_singleton] at hp
            subst hp
            rw [mapGet_set_self]
            rfl

lemma placementFold_inv (frames : List (List AssetInfo)) :
    (∀ a ∈ (placementFold frames).assets,
        ∃ s : AssetInfo,
          ((samplesOf frames).map (fun p => p.2)).find?
              (fun x => x.key == a.key) = some s ∧
          a.volume = s.volume ∧ a.loop = s.loop) ∧
    (∀ a ∈ (placementFold frames).assets,
        (mapGet (placementFold frames).timeMap a.key).isSome = true ∧
        mapGet (placementFold frames).loopMap a.key =
          some (a.loop.getD false)) := by
  obtain ⟨hA, hB, -⟩ := placement_fold_inv (samplesOf frames)
  rw [placementFold_eq_samples]
  exact ⟨hA, hB⟩

lemma finalizeAsset_fields (st : PlacementState) (b : MediaAsset) :
    (finalizeAsset st b).key = b.key ∧
    (finalizeAsset st b).volume = b.volume ∧
    (finalizeAsset st b).loop = b.loop := by
  rcases hv : mapGet st.volumeMap b.key with _ | vcs <;>
    rcases ht : mapGet st.timeMap b.key with _ | ti <;>
      simp only [finalizeAsset, hv, ht] <;> split_ifs <;>
        exact ⟨rfl, rfl, rfl⟩

lemma finalizeAsset_looping (st : PlacementState) (b : MediaAsset)
    (ti : ℚ × ℚ) (ht : mapGet st.timeMap b.key = some ti)
    (hl : mapGet st.loopMap b.key = some true) :
    (finalizeAsset st b).durationInSeconds = none := by
  rcases hv : mapGet st.volumeMap b.key with _ | vcs <;>
    simp [finalizeAsset, hv, ht, hl]

/-- C5: every `AssetSpan` produced by `getAssetPlacement` whose loop flag is
`true` carries the unbounded-duration sentinel (`none`, embedding JS
`Infinity`) as its `durationInSeconds`, never a finite value derived from the
wrapped current-time difference. -/
theorem looping_asset_carries_unbounded_sentinel
    (frames : List (List AssetInfo)) (a : MediaAsset)
    (ha : a ∈ getAssetPlacement frames) (hl : a.loop = some true) :
    a.durationInSeconds = none := by
  simp only [getAssetPlacement] at ha
  rcases List.mem_map.mp ha with ⟨b, hb, rfl⟩
  obtain ⟨-, hB⟩ := placementFold_inv frames
  obtain ⟨hsome, hloopmap⟩ := hB b hb
  have hbl : b.loop = some true := by
    have hfl := (finalizeAsset_fields (placementFold frames) b).2.2
    rw [hfl] at hl
    exact hl
  rcases Option.isSome_iff_exists.mp (by simpa using hsome) with ⟨ti, hti⟩
  have hlm : mapGet (placementFold frames).loopMap b.key = some true := by
    rw [hloopmap, hbl]
    rfl
  exact finalizeAsset_looping (placementFold frames) b ti hti hlm

/-- The single looping sample used to witness C5 (its `currentTime` is a
wrapped position, `2` seconds). -/
def c5Sample : AssetInfo :=
  { key := "L", src := "l.mp3", type := MediaType.audio, currentTime := 2,
    playbackRate := 1, volume := 1, loop := some true }

/-- The span reconstructed from `[[c5Sample]]`. -/
def c5Asset : MediaAsset :=
  { key := "L", src := "l.mp3", type := MediaType.audio,
    startInVideo := 0, endInVideo := 0, duration := 1,
    playbackRate := 1, volume := 1, trimLeftInSeconds := 2,
    durationInSeconds := none, loop := some true, volumeChanges := none }

lemma c5_placement : getAssetPlacement [[c5Sample]] = [c5Asset] := by
  norm_num [getAssetPlacement, placementFold, processSample, finalizeAsset,
    mapGet, mapSet, initAsset, c5Sample, c5Asset, List.enum, List.enumFrom,
    List.find?]

lemma c5_mem : c5Asset ∈ getAssetPlacement [[c5Sample]] := by
  rw [c5_placement]
  exact List.mem_singleton.mpr rfl

/-- Witness for C5: the looping single-sample scenario, whose reconstructed
span indeed carries the sentinel. -/
theorem looping_asset_carries_unbounded_sentinel_witness :
    c5Asset ∈ getAssetPlacement [[c5Sample]] ∧ c5Asset.loop = some true ∧
      c5Asset.durationInSeconds = none :=
  ⟨c5_mem, rfl,
    looping_asset_carries_unbounded_sentinel [[c5Sample]] c5Asset c5_mem rfl⟩

/-! ## generateAudio: skip decision and emitted segment paths -/

/-- One character of `key.replace(/[/[\]]/g, '-')`. -/
def sanitizeChar (c : Char) : Char :=
  if c = '/' ∨ c = '[' ∨ c = ']' then '-' else c

/-- `const sanitizedKey = asset.key.replace(/[/[\]]/g, '-')`. -/
def sanitizedKey (key : String) : String :=
  ⟨key.data.map sanitizeChar⟩

/-- `path.join a b` (POSIX). -/
def pathJoin (a b : String) : String := a ++ "/" ++ b

/-- `const outputPath = path.join(tempDir, sanitizedKey + ".wav")`. -/
def outputPath (tempDir key : String) : String :=
  pathJoin tempDir (sanitizedKey key ++ ".wav")

/-- The skip predicate of `generateAudio`'s loop: an asset is kept (a
subprocess is invoked for it) iff `playbackRate !== 0 && volume !== 0 &&
hasAudioStream`, where `hasAudioStream` is probed only for non-audio
assets. -/
def assetKept (hasAudioStream : String → Bool) (a : MediaAsset) : Bool :=
  (!(a.playbackRate == 0)) && (!(a.volume == 0)) &&
    (if a.type != MediaType.audio then hasAudioStream a.src else true)

/-- The assets for which `generateAudio` invokes `prepareAudio`. -/
def keptAssets (frames : List (List AssetInfo))
    (hasAudioStream : String → Bool) : List MediaAsset :=
  (getAssetPlacement frames).filter (assetKept hasAudioStream)

/-- The `audioFilenames` list returned by `generateAudio` (successful run):
one segment path per kept asset, in order. -/
def generateAudioFilenames (fullTempDir : String)
    (frames : List (List AssetInfo)) (hasAudioStream : String → Bool) :
    List String :=
  (keptAssets frames hasAudioStream).map (fun a => outputPath fullTempDir a.key)

/-- The first sample carrying `key`, in the visit order of
`getAssetPlacement`'s loops (frames in order, samples within a frame in
order). -/
def firstSampleOf (key : String) (frames : List (List AssetInfo)) :
    Option AssetInfo :=
  ((samplesOf frames).map (fun p => p.2)).find? (fun s => s.key == key)

lemma placement_volume_loop_from_first_sample (frames : List (List AssetInfo))
    (a : MediaAsset) (ha : a ∈ getAssetPlacement frames) :
    ∃ s : AssetInfo, firstSampleOf a.key frames = some s ∧
      a.volume = s.volume ∧ a.loop = s.loop := by
  simp only [getAssetPlacement] at ha
  rcases List.mem_map.mp ha with ⟨b, hb, rfl⟩
  obtain ⟨hA, -⟩ := placementFold_inv frames
  rcases hA b hb with ⟨s, hs, hv, hl⟩
  obtain ⟨hk, hvol, hloop⟩ := finalizeAsset_fields (placementFold frames) b
  refine ⟨s, ?_, ?_, ?_⟩
  · rw [firstSampleOf, hk]
    exact hs
  · rw [hvol]
    exact hv
  · rw [hloop]
    exact hl

/-- C9: the skip decision of `generateAudio` reads only the base volume,
which `getAssetPlacement` takes from the asset's first sample.  If the first
sample of an asset's key records volume `0`, then the reconstructed span has
base volume `0` and no asset with that key is kept (no subprocess invoked, no
segment path emitted), regardless of later samples' volumes. -/
theorem skip_decision_reads_first_sample_volume (frames : List (List AssetInfo))
    (hasAudioStream : String → Bool) (a : MediaAsset)
    (ha : a ∈ getAssetPlacement frames) (s : AssetInfo)
    (hs : firstSampleOf a.key frames = some s) (hv : s.volume = 0) :
    a.volume = 0 ∧
    (keptAssets frames hasAudioStream).all (fun b => b.key != a.key) = true := by
  obtain ⟨s', hs', hv', -⟩ := placement_volume_loop_from_first_sample frames a ha
  rw [hs] at hs'
  injection hs' with he
  have hav : a.volume = 0 := by rw [hv', ← he, hv]
  refine ⟨hav, ?_⟩
  rw [List.all_eq_true]
  intro b hb
  simp only [keptAssets, List.mem_filter] at hb
  by_contra hne
  have hbk : b.key = a.key := by simpa using hne
  obtain ⟨s'', hs'', hv'', -⟩ :=
    placement_volume_loop_from_first_sample frames b hb.1
  rw [hbk, hs] at hs''
  injection hs'' with he2
  have hbv : b.volume = 0 := by rw [hv'', ← he2, hv]
  have hkeep := hb.2
  simp [assetKept, hbv] at hkeep

/-- The C9 witness scenario: asset `R` starts silent (volume `0`) and rises
to volume `1` one frame later. -/
def c9Sample0 : AssetInfo :=
  { key := "R", src := "r.mp3", type := MediaType.audio, currentTime := 0,
    playbackRate := 1, volume := 0, loop := none }

/-- The second sample of the C9 scenario: same key, volume `1`. -/
def c9Sample1 : AssetInfo :=
  { key := "R", src := "r.mp3", type := MediaType.audio,
    currentTime := 1/10, playbackRate := 1, volume := 1, loop := none }

/-- The span reconstructed from the C9 scenario: base volume `0`, rising
envelope `[(0,0),(1,1)]`. -/
def c9Asset : MediaAsset :=
  { key := "R", src := "r.mp3", type := MediaType.audio,
    startInVideo := 0, endInVideo := 1, duration := 2,
    playbackRate := 1, volume := 0, trimLeftInSeconds := 0,
    durationInSeconds := some (1/10), loop := none,
    volumeChanges := some [(0, 0), (1, 1)] }

lemma c9_placement :
    getAssetPlacement [[c9Sample0], [c9Sample1]] = [c9Asset] := by
  norm_num [getAssetPlacement, placementFold, processSample, finalizeAsset,
    mapGet, mapSet, initAsset, updateFirstAsset, c9Sample0, c9Sample1,
    c9Asset, List.enum, List.enumFrom, List.find?]

lemma c9_mem : c9Asset ∈ getAssetPlacement [[c9Sample0], [c9Sample1]] := by
  rw [c9_placement]
  exact List.mem_singleton.mpr rfl

lemma c9_first :
    firstSampleOf c9Asset.key [[c9Sample0], [c9Sample1]] = some c9Sample0 := by
  norm_num [firstSampleOf, samplesOf, samplesFrom, c9Sample0, c9Sample1,
    c9Asset, List.find?]

/-- Witness for C9: in the rising-volume scenario the span's base volume is
`0` and no asset with key `R` is kept, so no segment is produced even though
a later sample has volume `1`. -/
theorem skip_decision_reads_first_sample_volume_witness :
    c9Asset ∈ getAssetPlacement [[c9Sample0], [c9Sample1]] ∧
    c9Sample0.volume = 0 ∧
    (c9Asset.volume = 0 ∧
      (keptAssets [[c9Sample0], [c9Sample1]] (fun _ => true)).all
        (fun b => b.key != c9Asset.key) = true) :=
  ⟨c9_mem, rfl,
    skip_decision_reads_first_sample_volume [[c9Sample0], [c9Sample1]]
      (fun _ => true) c9Asset c9_mem c9Sample0 c9_first rfl⟩

/-! ## Subprocess completion: prepareAudio and mergeAudioTracks -/

/-- The completion events of the ffmpeg subprocess wrapper: the `'end'`
callback or the `'error'` callback with its message. -/
inductive SubprocessEvent where
  | onEnd
  | onError (msg : String)
deriving DecidableEq, Repr

/-- How the promise inside `prepareAudio` settles: `resolve()` on `'end'`,
`reject(err)` on `'error'`.  The size of the produced output file is never
examined by the source, so it is an inert parameter here. -/
def prepareAudioOutcome (ev : SubprocessEvent) (producedFileSize : ℕ) :
    Except String Unit :=
  match ev with
  | SubprocessEvent.onEnd => Except.ok ()
  | SubprocessEvent.onError m => Except.error m

/-- How the promise inside `mergeAudioTracks` settles: `resolve()` on
`'end'`, `reject(err)` on `'error'`; the mixed file's size is likewise never
examined. -/
def mergeAudioTracksOutcome (ev : SubprocessEvent) (mixedFileSize : ℕ) :
    Except String Unit :=
  match ev with
  | SubprocessEvent.onEnd => Except.ok ()
  | SubprocessEvent.onError m => Except.error m

/-- C6 counterexample: with a successful subprocess (`'end'`) and a produced
file of size `0`, both `prepareAudio` and `mergeAudioTracks` resolve
successfully — they do not reject, contradicting the claim that a zero-byte
output is treated as a fatal error. -/
theorem zero_byte_output_still_resolves :
    prepareAudioOutcome SubprocessEvent.onEnd 0 = Except.ok () ∧
    mergeAudioTracksOutcome SubprocessEvent.onEnd 0 = Except.ok () :=
  ⟨rfl, rfl⟩

/-- C6 amended: the settlement of `prepareAudio` and `mergeAudioTracks` is
determined solely by the subprocess callbacks — resolve on `'end'`, reject
with the error on `'error'` — and is independent of the produced file's
size; in particular a zero-byte output with a successful subprocess is not
detected. -/
theorem outcome_is_independent_of_file_size :
    ∀ (ev : SubprocessEvent) (s₁ s₂ : ℕ),
      prepareAudioOutcome ev s₁ = prepareAudioOutcome ev s₂ ∧
      mergeAudioTracksOutcome ev s₁ = mergeAudioTracksOutcome ev s₂ ∧
      prepareAudioOutcome SubprocessEvent.onEnd s₁ = Except.ok () ∧
      mergeAudioTracksOutcome SubprocessEvent.onEnd s₁ = Except.ok () ∧
      (∀ m, prepareAudioOutcome (SubprocessEvent.onError m) s₁ =
          Except.error m ∧
        mergeAudioTracksOutcome (SubprocessEvent.onError m) s₁ =
          Except.error m) := by
  intro ev s₁ s₂
  rcases ev with _ | m <;>
    exact ⟨rfl, rfl, rfl, rfl, fun m => ⟨rfl, rfl⟩⟩

/-! ## generateAudio / mergeMedia: mixing and merging -/

/-- The output formats of the exporter. -/
inductive OutputFormat where
  | mp4
  | webm
  | proRes
deriving DecidableEq, Repr

/-- `audioCodecs = {mp4: 'aac', webm: 'libopus', proRes: 'aac'}`. -/
def audioCodecs : OutputFormat → String
  | OutputFormat.mp4 => "aac"
  | OutputFormat.webm => "libopus"
  | OutputFormat.proRes => "aac"

/-- `if (audioFilenames.length > 0) await mergeAudioTracks(...)`: whether
the Track Mixer stage runs at all. -/
def generateAudioMixInvoked (fullTempDir : String)
    (frames : List (List AssetInfo)) (hasAudioStream : String → Bool) : Bool :=
  decide (0 < (generateAudioFilenames fullTempDir frames hasAudioStream).length)

/-- The files this module writes into the shard's temp directory during
`generateAudio`: one segment per kept asset, plus `audio.wav` written by
`mergeAudioTracks` only when it is invoked. -/
def generateAudioWrittenFiles (fullTempDir : String)
    (frames : List (List AssetInfo)) (hasAudioStream : String → Bool) :
    List String :=
  generateAudioFilenames fullTempDir frames hasAudioStream ++
    (if 0 < (generateAudioFilenames fullTempDir frames hasAudioStream).length
      then [pathJoin fullTempDir "audio.wav"] else [])

/-- The action `mergeMedia` performs on the visual container: mux with the
mixed audio, or plain copy. -/
inductive MergeAction where
  | muxAudioVideo (audioPath videoPath outPath codecName : String)
  | copyFile (srcPath destPath : String)
deriving DecidableEq, Repr

/-- The branch of `mergeMedia` on `fs.existsSync(tempDir + "/audio.wav")`:
mux when the mixed track exists, otherwise `fs.promises.copyFile` of the
visual container to the destination (no transcode).  `ext` is
`extensions[format]` (the extension table itself lives outside this
module). -/
def mergeMediaAction (outputFilename outputDir fullTempDir ext : String)
    (format : OutputFormat) (audioWavExists : Bool) : MergeAction :=
  if audioWavExists then
    MergeAction.muxAudioVideo (pathJoin fullTempDir "audio.wav")
      (pathJoin fullTempDir ("visuals." ++ ext))
      (pathJoin outputDir (outputFilename ++ "." ++ ext))
      (audioCodecs format)
  else
    MergeAction.copyFile (pathJoin fullTempDir ("visuals." ++ ext))
      (pathJoin outputDir (outputFilename ++ "." ++ ext))

/-- C7: when `generateAudio` produces zero segments, the Track Mixer is not
invoked, no `audio.wav` is written, and `mergeMedia` — whose existence check
then finds no mixed track — copies the visual container to the final output
path unchanged instead of transcoding. -/
theorem zero_segments_skip_mixer_and_copy (fullTempDir : String)
    (frames : List (List AssetInfo)) (hasAudioStream : String → Bool)
    (outputFilename outputDir ext : String) (format : OutputFormat)
    (h : generateAudioFilenames fullTempDir frames hasAudioStream = []) :
    generateAudioMixInvoked fullTempDir frames hasAudioStream = false ∧
    pathJoin fullTempDir "audio.wav" ∉
      generateAudioWrittenFiles fullTempDir frames hasAudioStream ∧
    mergeMediaAction outputFilename outputDir fullTempDir ext format
        ((generateAudioWrittenFiles fullTempDir frames
          hasAudioStream).contains (pathJoin fullTempDir "audio.wav")) =
      MergeAction.copyFile (pathJoin fullTempDir ("visuals." ++ ext))
        (pathJoin outputDir (outputFilename ++ "." ++ ext)) := by
  have hw : generateAudioWrittenFiles fullTempDir frames hasAudioStream = [] := by
    simp [generateAudioWrittenFiles, h]
  refine ⟨?_, ?_, ?_⟩
  · simp [generateAudioMixInvoked, h]
  · rw [hw]
    exact List.not_mem_nil _
  · rw [hw]
    rfl

/-- Witness for C7 on the empty input: no samples, hence no segments. -/
theorem zero_segments_skip_mixer_and_copy_witness :
    generateAudioFilenames "tmp" [] (fun _ => true) = [] ∧
    (generateAudioMixInvoked "tmp" [] (fun _ => true) = false ∧
      pathJoin "tmp" "audio.wav" ∉
        generateAudioWrittenFiles "tmp" [] (fun _ => true) ∧
      mergeMediaAction "out" "dir" "tmp" "mp4" OutputFormat.mp4
          ((generateAudioWrittenFiles "tmp" [] (fun _ => true)).contains
            (pathJoin "tmp" "audio.wav")) =
        MergeAction.copyFile (pathJoin "tmp" ("visuals." ++ "mp4"))
          (pathJoin "dir" ("out" ++ "." ++ "mp4"))) :=
  ⟨rfl,
    zero_segments_skip_mixer_and_copy "tmp" [] (fun _ => true) "out" "dir"
      "mp4" OutputFormat.mp4 rfl⟩

/-! ## mergeMedia: temp directory cleanup -/

/-- What happens to the shard's temp directory at the end of `mergeMedia`. -/
inductive CleanupBehavior where
  /-- `fs.promises.rm(..., {recursive, force}).catch(() => {})` -/
  | removeSwallowErrors
  /-- a removal whose failure would propagate (never performed by the code) -/
  | removePropagateErrors
  /-- no removal at all -/
  | noRemoval
deriving DecidableEq, Repr

/-- `fullTempDir.endsWith('-undefined')`, on the character data. -/
def endsWithMarker (s : String) : Bool :=
  "-undefined".data.isSuffixOf s.data

/-- The tail of `mergeMedia`: the temp directory is removed — best-effort,
errors swallowed by `.catch(() => {})` — only when its name ends with the
`-undefined` marker; otherwise nothing is removed. -/
def mergeMediaCleanup (fullTempDir : String) : CleanupBehavior :=
  if endsWithMarker fullTempDir then CleanupBehavior.removeSwallowErrors
  else CleanupBehavior.noRemoval

/-- C8 counterexample: for a temp directory without the `-undefined` marker
the code performs no removal at all — it neither removes with propagating
failures (as the claim states) nor removes at all. -/
theorem unmarked_dir_is_not_removed :
    mergeMediaCleanup "/tmp/revideo-shard1" = CleanupBehavior.noRemoval ∧
    mergeMediaCleanup "/tmp/revideo-shard1" ≠
      CleanupBehavior.removePropagateErrors ∧
    endsWithMarker "/tmp/revideo-shard1" = false := by
  refine ⟨by decide, by decide, by decide⟩

/-- C8 amended: the temp directory is removed only when its name ends with
the `-undefined` marker, and then with failures swallowed; a removal with
propagating failures never happens, and unmarked directories are not removed
at all. -/
theorem cleanup_only_for_marked_dirs (d : String) :
    (mergeMediaCleanup d = CleanupBehavior.removeSwallowErrors ↔
      endsWithMarker d = true) ∧
    mergeMediaCleanup d ≠ CleanupBehavior.removePropagateErrors ∧
    (endsWithMarker d = false →
      mergeMediaCleanup d = CleanupBehavior.noRemoval) := by
  by_cases h : endsWithMarker d = true
  · refine ⟨?_, ?_, ?_⟩
    · simp [mergeMediaCleanup, h]
    · simp [mergeMediaCleanup, h]
    · intro hf
      rw [h] at hf
      exact absurd hf (by decide)
  · have hf : endsWithMarker d = false := by
      revert h
      rcases endsWithMarker d with _ | _ <;> simp
    refine ⟨?_, ?_, ?_⟩
    · simp [mergeMediaCleanup, hf]
    · simp [mergeMediaCleanup, hf]
    · intro _
      simp [mergeMediaCleanup, hf]

/-! ## C10: segment output paths and sanitized-key collisions -/

/-- C10: the segment path is the temp dir joined with the sanitized key plus
`.wav`, where sanitizing replaces every `/`, `[`, `]` by `-`.  Keys with
equal sanitizations (such as `a/b` and `a-b`, which are distinct) are written
to the same path — so the later synthesis overwrites the earlier file —
while distinct sanitized keys always yield distinct paths. -/
theorem outputPath_collision_behavior :
    (∀ tempDir k₁ k₂, sanitizedKey k₁ = sanitizedKey k₂ →
        outputPath tempDir k₁ = outputPath tempDir k₂) ∧
    (("a/b" : String) ≠ "a-b" ∧ sanitizedKey "a/b" = sanitizedKey "a-b") ∧
    (∀ tempDir k₁ k₂, sanitizedKey k₁ ≠ sanitizedKey k₂ →
        outputPath tempDir k₁ ≠ outputPath tempDir k₂) := by
  refine ⟨?_, ⟨by decide, by decide⟩, ?_⟩
  · intro t k₁ k₂ h
    simp [outputPath, pathJoin, h]
  · intro t k₁ k₂ h hpe
    apply h
    have hdata := congrArg String.data hpe
    simp only [outputPath, pathJoin, String.data_append,
      List.append_assoc] at hdata
    have h2 := List.append_cancel_left hdata
    have h3 := List.append_cancel_left h2
    have h4 := List.append_cancel_right h3
    exact String.ext h4

/-- Witness for C10: the colliding pair `a/b` / `a-b` maps to one path, and
the non-colliding pair `x` / `y` maps to two distinct paths. -/
theorem outputPath_collision_behavior_witness :
    (("a/b" : String) ≠ "a-b" ∧
      outputPath "tmp" "a/b" = outputPath "tmp" "a-b") ∧
    (sanitizedKey "x" ≠ sanitizedKey "y" ∧
      outputPath "tmp" "x" ≠ outputPath "tmp" "y") :=
  ⟨⟨by decide, outputPath_collision_behavior.1 "tmp" "a/b" "a-b" (by decide)⟩,
   ⟨by decide, outputPath_collision_behavior.2.2 "tmp" "x" "y" (by decide)⟩⟩

/-- Witness for the amended C8 at a concrete unmarked directory. -/
theorem cleanup_only_for_marked_dirs_witness :
    endsWithMarker "/tmp/render-7" = false ∧
    mergeMediaCleanup "/tmp/render-7" = CleanupBehavior.noRemoval :=
  ⟨by decide, (cleanup_only_for_marked_dirs "/tmp/render-7").2.2 (by decide)⟩
